import Mathlib

/-!
Shallow embedding of the blockchain e-voting core (`base.py`, `election.py`,
`constants.py`) and proofs about its ledger replay, chain gate, transaction
admission and signing code.

Python object identity (dict keys are unhashed objects) is modelled by `Nat`
object ids (`oid` fields); Python dicts are modelled by insertion-ordered
association lists; an uncaught `KeyError` is modelled by `Except.error` /
`Option.none`; RSA signatures are modelled symbolically as the pair of the
signed message and the signing key.
-/

instance {ε α : Type} [DecidableEq ε] [DecidableEq α] : DecidableEq (Except ε α) := fun a b =>
  match a, b with
  | .error x, .error y =>
    if h : x = y then .isTrue (by rw [h]) else .isFalse (by simp [h])
  | .ok x, .ok y =>
    if h : x = y then .isTrue (by rw [h]) else .isFalse (by simp [h])
  | .error _, .ok _ => .isFalse (by simp)
  | .ok _, .error _ => .isFalse (by simp)

namespace BEVote

/-- Read of a Python dict, `d[k]`: first binding for `k`, `none` = `KeyError`. -/
def alookup {α : Type} : List (Nat × α) → Nat → Option α
  | [], _ => none
  | (k, v) :: t, k0 => if k = k0 then some v else alookup t k0

/-- Write to a Python dict, `d[k] = v`: replace the binding in place if the key
is present, otherwise append it (insertion order preserved). -/
def aset {α : Type} : List (Nat × α) → Nat → α → List (Nat × α)
  | [], k0, v0 => [(k0, v0)]
  | (k, v) :: t, k0, v0 => if k = k0 then (k0, v0) :: t else (k, v) :: aset t k0 v0

/-- Ballot lifecycle states, `STATE.CREATED / ISSUED / USED` in `constants.py`. -/
inductive BState
  | created
  | issued
  | used
  deriving DecidableEq, Repr

/-- Position of a ballot state on the legal chain Created → Issued → Used. -/
def BState.rank : BState → Nat
  | .created => 0
  | .issued => 1
  | .used => 2

/-- Voter states, `STATE.NOT_VOTED / VOTED` in `constants.py`. -/
inductive VState
  | notVoted
  | voted
  deriving DecidableEq, Repr

/-- `election.Choice`: `oid` models Python object identity (tally dict key). -/
structure Choice where
  oid : Nat
  description : String
  chosen : Bool
  deriving DecidableEq, Repr

/-- `election.BallotItem`. -/
structure BallotItem where
  title : String
  description : String
  maxChoices : Nat
  choices : List Choice
  deriving DecidableEq, Repr

/-- `election.Ballot`: `oid` models object identity (ledger dict key). -/
structure Ballot where
  oid : Nat
  id : String
  election : String
  items : List BallotItem
  deriving DecidableEq, Repr

/-- `Ballot.get_selected_choices`: every chosen choice, in item order. -/
def Ballot.get_selected_choices (b : Ballot) : List Choice :=
  b.items.flatMap fun it => it.choices.filter fun c => c.chosen

/-- `VoteTransaction` as the replay algorithm sees it: the referenced ballot
object and the declared state edge. -/
structure VoteTx where
  ballot : Ballot
  prev : BState
  new : BState
  deriving DecidableEq, Repr

/-- `base.VoteLedger`: per-ballot state (keyed by ballot object identity), the
three aggregate counters, per-candidate tallies (keyed by `Choice` object
identity), and `total_ballots`. -/
structure VoteLedger where
  ballotState : List (Nat × BState)
  cCreated : Int
  cIssued : Int
  cUsed : Int
  tally : List (Nat × Int)
  totalBallots : Nat
  deriving DecidableEq, Repr

/-- Read of the aggregate counter `ledger[state]`. -/
def VoteLedger.counter (l : VoteLedger) : BState → Int
  | .created => l.cCreated
  | .issued => l.cIssued
  | .used => l.cUsed

/-- Write of the aggregate counter `ledger[state] = v`. -/
def VoteLedger.setCounter (l : VoteLedger) : BState → Int → VoteLedger
  | .created, v => { l with cCreated := v }
  | .issued, v => { l with cIssued := v }
  | .used, v => { l with cUsed := v }

/-- `VoteLedger.__init__`: every ballot starts `CREATED`; counters are
`(len(ballots), 0, 0)`; one tally entry per choice of `ballots[0]` only.
Python indexes `ballots[0]`, so the empty list raises: modelled by `none`. -/
def mkVoteLedger (ballots : List Ballot) : Option VoteLedger :=
  match ballots with
  | [] => none
  | b0 :: _ =>
    some
      { ballotState := ballots.foldl (fun m b => aset m b.oid .created) []
        cCreated := (ballots.length : Int)
        cIssued := 0
        cUsed := 0
        tally := (b0.items.flatMap fun it => it.choices).foldl (fun m c => aset m c.oid 0) []
        totalBallots := ballots.length }

/-- The `for candidate in candidates: ledger[candidate] += 1` loop of
`VoteLedger.apply_transactions`; reading an unregistered Choice key raises
`KeyError` (`none`). -/
def tallyAdd : List (Nat × Int) → List Choice → Option (List (Nat × Int))
  | t, [] => some t
  | t, c :: cs =>
    match alookup t c.oid with
    | none => none
    | some v => tallyAdd (aset t c.oid (v + 1)) cs

/-- The `_reiterate` attributes of the transaction objects, keyed by
transaction object identity. -/
abbrev Flags := List (Nat × Bool)

/-- The in-place updates of one applied vote transaction before the tally
loop: set the ballot's state to `new_state`, decrement the old state's
aggregate counter, increment the new state's counter (`base.py:352-356`). -/
def voteApplyCore (l : VoteLedger) (tx : VoteTx) (old : BState) : VoteLedger :=
  let l1 := { l with ballotState := aset l.ballotState tx.ballot.oid tx.new }
  let l2 := l1.setCounter old (l1.counter old - 1)
  l2.setCounter tx.new (l2.counter tx.new + 1)

/-- One inner-loop iteration of `VoteLedger.apply_transactions` on the
transaction with object id `i` (`store` dereferences ids). `iter` is the outer
`iteration`; `flags` holds the `_reiterate` attributes; `Except.error` is an
uncaught `KeyError`. The state/counter updates never touch the tally map, so
the candidate loop (`base.py:358-361`) reads `l.tally`. -/
def voteStep (store : Nat → VoteTx) (iter : Nat) (l : VoteLedger) (flags : Flags)
    (i : Nat) : Except Unit (VoteLedger × Flags) :=
  if iter = 1 ∧ alookup flags i = some false then .ok (l, flags)
  else
    match alookup l.ballotState (store i).ballot.oid with
    | none => .error ()
    | some old =>
      if (store i).prev ≠ old then .ok (l, aset flags i true)
      else
        match tallyAdd l.tally (store i).ballot.get_selected_choices with
        | none => .error ()
        | some t => .ok ({ voteApplyCore l (store i) old with tally := t }, aset flags i false)

/-- One full pass (`for transaction in transactions`) of
`VoteLedger.apply_transactions`. -/
def votePass (store : Nat → VoteTx) (iter : Nat) :
    VoteLedger → Flags → List Nat → Except Unit (VoteLedger × Flags)
  | l, f, [] => .ok (l, f)
  | l, f, i :: is =>
    match voteStep store iter l f i with
    | .error e => .error e
    | .ok (l', f') => votePass store iter l' f' is

/-- `VoteLedger.apply_transactions`: two passes (`for iteration in range(2)`)
over the batch of transaction ids. -/
def VoteLedger.apply_transactions (store : Nat → VoteTx) (txids : List Nat)
    (l : VoteLedger) : Except Unit VoteLedger :=
  match votePass store 0 l [] txids with
  | .error e => .error e
  | .ok (l1, f1) =>
    match votePass store 1 l1 f1 txids with
    | .error e => .error e
    | .ok (l2, _) => .ok l2

/-- `election.Voter`: `oid` models object identity (ledger dict key). -/
structure Voter where
  oid : Nat
  name : String
  id : String
  deriving DecidableEq, Repr

/-- `VoterTransaction` as the replay loop sees it. -/
structure VoterTx where
  voter : Voter
  prev : VState
  new : VState
  deriving DecidableEq, Repr

/-- `base.VoterLedger`: per-voter state, the two aggregate counters, and
`registered_voters`. -/
structure VoterLedger where
  voterState : List (Nat × VState)
  cNotVoted : Int
  cVoted : Int
  registeredVoters : Nat
  deriving DecidableEq, Repr

/-- Read of the aggregate counter `ledger[state]`. -/
def VoterLedger.counter (l : VoterLedger) : VState → Int
  | .notVoted => l.cNotVoted
  | .voted => l.cVoted

/-- Write of the aggregate counter `ledger[state] = v`. -/
def VoterLedger.setCounter (l : VoterLedger) : VState → Int → VoterLedger
  | .notVoted, v => { l with cNotVoted := v }
  | .voted, v => { l with cVoted := v }

/-- `VoterLedger.__init__`. -/
def mkVoterLedger (voters : List Voter) : VoterLedger :=
  { voterState := voters.foldl (fun m v => aset m v.oid .notVoted) []
    cNotVoted := (voters.length : Int)
    cVoted := 0
    registeredVoters := voters.length }

/-- One loop iteration of `VoterLedger.apply_transactions`. -/
def voterStep (l : VoterLedger) (tx : VoterTx) : Except Unit VoterLedger :=
  match alookup l.voterState tx.voter.oid with
  | none => .error ()
  | some cur =>
    if cur ≠ tx.prev then .ok l
    else
      let l1 := { l with voterState := aset l.voterState tx.voter.oid tx.new }
      let l2 := l1.setCounter tx.prev (l1.counter tx.prev - 1)
      .ok (l2.setCounter tx.new (l2.counter tx.new + 1))

/-- `VoterLedger.apply_transactions`: a single pass over the batch. -/
def VoterLedger.apply_transactions : List VoterTx → VoterLedger → Except Unit VoterLedger
  | [], l => .ok l
  | tx :: txs, l =>
    match voterStep l tx with
    | .error e => .error e
    | .ok l' => VoterLedger.apply_transactions txs l'

/-- A block as the chain gate sees it: `oid` models the block object's
identity (the `is` comparison in `add_block` is on object identity), `prev`
the identity of the object referenced by `previous_block` (`none` = Python
`None`, the empty-chain sentinel). -/
structure PBlock where
  oid : Nat
  prev : Option Nat
  deriving DecidableEq, Repr

/-- `base.Blockchain`: only the current head (`current_block`) is stored. -/
structure Blockchain where
  current_block : Option PBlock
  deriving DecidableEq, Repr

/-- `Blockchain.add_block`: installs the block as head iff
`block.previous_block is self.current_block`; otherwise prints a rejection
message and leaves the chain unchanged. -/
def Blockchain.add_block (c : Blockchain) (b : PBlock) : Blockchain :=
  if b.prev = c.current_block.map PBlock.oid then { current_block := some b } else c

/-- `Blockchain.add_block_2`: unconditionally overwrites the block's
`previous_block` with the current head and installs the block as head. -/
def Blockchain.add_block_2 (c : Blockchain) (b : PBlock) : Blockchain :=
  { current_block := some { b with prev := c.current_block.map PBlock.oid } }

/-- `Blockchain.remove_block`: always raises. -/
def Blockchain.remove_block (_c : Blockchain) (_b : PBlock) : Except Unit Blockchain :=
  .error ()

/-- `Block.__init__` (`base.py:423`) computes the header as
`node.sign_message(Block.get_hash(self))`, but class `Block` defines no
attribute `get_hash` (only `Ledger` does), so every construction raises
`AttributeError` before a header is produced; the helper it was meant to
reach, `Block.get_signature_contents`, itself reads the undefined global name
`block` at `base.py:437`. Modelled as the unconditional exception it is. -/
def Block.construct (_transactions : List (String × Nat)) (_ledger : VoteLedger)
    (_nodeKey : Nat) (_prev : Option PBlock) : Except Unit (PBlock × (String × Nat)) :=
  .error ()

/-- `utils.sign`, symbolically: the signature is the signed message paired
with the signing key (`verify_signature` then checks exactly this pair
against the expected message and public key). -/
def sign (msg : String) (key : Nat) : String × Nat :=
  (msg, key)

/-- Python `str` of a bool, as it appears in signature payloads. -/
def pyBool : Bool → String
  | true => "True"
  | false => "False"

/-- The `STATE` string constants for ballot states. -/
def stateStr : BState → String
  | .created => "ballot_created"
  | .issued => "ballot_issued"
  | .used => "ballot_used"

/-- The `STATE` string constants for voter states. -/
def vstateStr : VState → String
  | .notVoted => "not voted"
  | .voted => "voted"

/-- `Choice.get_signature_contents(include_chosen=...)`. -/
def Choice.get_signature_contents (ic : Bool) (c : Choice) : String :=
  ":".intercalate ([c.description] ++ if ic then [pyBool c.chosen] else [])

/-- `BallotItem.get_signature_contents`. -/
def BallotItem.get_signature_contents (ic : Bool) (it : BallotItem) : String :=
  ":".intercalate ([it.title, it.description, toString it.maxChoices] ++
    it.choices.map (Choice.get_signature_contents ic))

/-- `Ballot.get_signature_contents`. -/
def Ballot.get_signature_contents (ic : Bool) (b : Ballot) : String :=
  ":".intercalate ([b.id, b.election] ++ b.items.map (BallotItem.get_signature_contents ic))

/-- A `VoteTransaction` with its signing-relevant fields: the stored
`signature_kwargs` (`includeChosen`; the Python default when no kwarg is
passed is `True`), the `timestamped` flag, the timestamp, the issuing node's
key and the current signature. -/
structure SVoteTx where
  ballot : Ballot
  prev : BState
  new : BState
  includeChosen : Bool
  timestamped : Bool
  time : Option Nat
  nodeKey : Nat
  signature : String × Nat
  deriving DecidableEq, Repr

/-- `Transaction.get_signature_contents(**kwargs)` for a vote transaction:
content payload, previous state, new state, and the formatted time iff
`timestamped`. `ic` is the `include_chosen` kwarg actually passed. -/
def SVoteTx.get_signature_contents (ic : Bool) (t : SVoteTx) : String :=
  ":".intercalate ([t.ballot.get_signature_contents ic, stateStr t.prev, stateStr t.new] ++
    if t.timestamped then [toString (t.time.getD 0)] else [])

/-- `VoteTransaction.__init__` with `timestamped=False`: phase-1 signature
over the untimestamped payload built with the stored kwargs. -/
def mkVoteTransaction (b : Ballot) (prev new : BState) (ic : Bool) (key : Nat) : SVoteTx :=
  let t : SVoteTx :=
    { ballot := b, prev := prev, new := new, includeChosen := ic, timestamped := false,
      time := none, nodeKey := key, signature := sign "" 0 }
  { t with signature := sign (t.get_signature_contents ic) key }

/-- `VoteTransaction.add_timestamp`. -/
def SVoteTx.add_timestamp (now : Nat) (t : SVoteTx) : SVoteTx :=
  { t with time := some now, timestamped := true }

/-- `VoteTransaction.timestamp_and_sign_transactions`: gives every transaction
in the batch the same timestamp `now` and overwrites its signature with
`tx.node.sign_message(tx.get_signature_contents())` — note: called with NO
kwargs, so `include_chosen` falls back to its default `True` regardless of
the transaction's stored `signature_kwargs`. -/
def timestamp_and_sign_transactions (now : Nat) (txs : List SVoteTx) : List SVoteTx :=
  txs.map fun t =>
    let t1 := t.add_timestamp now
    { t1 with signature := sign (t1.get_signature_contents true) t1.nodeKey }

/-- `Transaction.verify_transaction` for a vote transaction: recompute the
payload with the transaction's STORED kwargs and check it against the
signature and the issuer's key. -/
def SVoteTx.verify (t : SVoteTx) : Bool :=
  t.signature = sign (t.get_signature_contents t.includeChosen) t.nodeKey

/-- A transaction as `Node.add_transaction` sees it: `payload` stands for the
canonical string `get_signature_contents(**signature_kwargs)` recomputed from
the transaction's current fields, `issuer` for `transaction.node.public_key`
(identified with its fingerprint `hash(public_key)`). -/
structure NTx where
  payload : String
  issuer : Nat
  signature : String × Nat
  timestamped : Bool
  deriving DecidableEq, Repr

/-- `Transaction.verify_transaction` at the admission gate. -/
def verify_transaction (t : NTx) : Bool :=
  t.signature = sign t.payload t.issuer

/-- The state of a `Node`: its own key fingerprint, its trust mapping
(`node_mapping` keys; for a `VotingComputer` this also covers the ballot
generator, which `is_node_in_network` additionally accepts), and the three
transaction buckets. -/
structure NodeState where
  key : Nat
  trusted : List Nat
  pending : List NTx
  verified : List NTx
  rejected : List NTx
  deriving DecidableEq, Repr

/-- `Node.is_node_in_network`. -/
def NodeState.is_node_in_network (n : NodeState) (k : Nat) : Bool :=
  n.trusted.contains k

/-- `Node.add_transaction`: admit iff the issuer is trusted and the signature
verifies; untimestamped accepted transactions go to `pending_transactions`,
timestamped accepted ones to `verified_transactions`, all others to
`rejected_transactions`. -/
def NodeState.add_transaction (n : NodeState) (t : NTx) : NodeState :=
  if n.is_node_in_network t.issuer && verify_transaction t then
    if !t.timestamped then { n with pending := t :: n.pending }
    else { n with verified := t :: n.verified }
  else
    { n with rejected := t :: n.rejected }

/-- Canonical payload of a `VoterTransaction` (always timestamped): voter id,
previous state, new state, formatted time. -/
def voterSigPayload (voterId : String) (p q : VState) (time : Nat) : String :=
  ":".intercalate [voterId, vstateStr p, vstateStr q, toString time]

/-- `VoterComputer.create_transaction`: builds a timestamped
`NOT_VOTED → VOTED` transaction signed with the computer's own key and adds
it directly to the node's own `verified_transactions` (self-created
transactions are auto-verified, skipping `add_transaction`). -/
def NodeState.create_voter_transaction (n : NodeState) (voterId : String) (time : Nat) :
    NodeState × NTx :=
  let p := voterSigPayload voterId .notVoted .voted time
  let t : NTx := { payload := p, issuer := n.key, signature := sign p n.key, timestamped := true }
  ({ n with verified := t :: n.verified }, t)

/-- The operations that can touch one node's transaction buckets. -/
inductive NodeOp
  | recv (t : NTx)
  | createVoter (voterId : String) (time : Nat)
  deriving DecidableEq, Repr

/-- Run a sequence of bucket-touching operations on one node. -/
def NodeState.run (n : NodeState) : List NodeOp → NodeState
  | [] => n
  | op :: ops =>
    (match op with
     | .recv t => n.add_transaction t
     | .createVoter v time => (n.create_voter_transaction v time).1).run ops

/-- `BallotItem.vote(choice_description)`: select every choice whose
description matches. -/
def BallotItem.vote (d : String) (it : BallotItem) : BallotItem :=
  { it with
    choices := it.choices.map fun c =>
      if c.description = d then { c with chosen := true } else c }

/-- Fresh object identities for one `deepcopy` of an item list
(`utils.get_deep_copy_of_list`): the copied `Choice` objects are new objects,
modelled by re-basing their ids at `base` (callers pick disjoint bases for
distinct copies, matching the distinct identities `deepcopy` guarantees). -/
def deepCopyItems (base : Nat) (items : List BallotItem) : List BallotItem :=
  items.map fun it =>
    { it with choices := it.choices.map fun c => { c with oid := base + c.oid } }

/-- `BallotGenerator.generate_ballots(election, items, num_ballots)`: one
ballot per index, each constructed over its own deep copy of `items`.
`stride` spaces the id ranges of the per-ballot copies (any bound above the
template's choice ids); the random 128-bit ballot id string is modelled by
the index. -/
def generate_ballots (election : String) (items : List BallotItem) (stride : Nat)
    (numBallots : Nat) : List Ballot :=
  (List.range numBallots).map fun k =>
    { oid := k, id := toString k, election := election,
      items := deepCopyItems ((k + 1) * stride) items }

/-- The legal ballot edges, `Created → Issued → Used` (spec section 3: two
legal edges, strictly ordered, no skipping). -/
def legalVoteTx (t : VoteTx) : Prop :=
  (t.prev = .created ∧ t.new = .issued) ∨ (t.prev = .issued ∧ t.new = .used)

/-- The legal voter edge, `NotVoted → Voted`. -/
def legalVoterTx (t : VoterTx) : Prop :=
  t.prev = .notVoted ∧ t.new = .voted

/-- Transaction `j` is stale for ledger `l`: the ledger already records its
ballot at (or past) the transaction's target state — the situation after the
transaction has been applied. -/
def staleFor (store : Nat → VoteTx) (j : Nat) (l : VoteLedger) : Prop :=
  ∃ s, alookup l.ballotState (store j).ballot.oid = some s ∧
    (store j).new.rank ≤ s.rank

/-- Sum of the per-state aggregate counters of a vote ledger. -/
def VoteLedger.counterSum (l : VoteLedger) : Int :=
  l.cCreated + l.cIssued + l.cUsed

/-- Sum of the per-state aggregate counters of a voter ledger. -/
def VoterLedger.counterSum (l : VoterLedger) : Int :=
  l.cNotVoted + l.cVoted

/-- A sequence of `VoteLedger.apply_transactions` calls, one per batch
(statement device for properties of call sequences). -/
def VoteLedger.applyAll (store : Nat → VoteTx) :
    List (List Nat) → VoteLedger → Except Unit VoteLedger
  | [], l => .ok l
  | b :: bs, l =>
    match VoteLedger.apply_transactions store b l with
    | .error e => .error e
    | .ok l' => VoteLedger.applyAll store bs l'

/-- A sequence of `VoterLedger.apply_transactions` calls, one per batch. -/
def VoterLedger.applyAll : List (List VoterTx) → VoterLedger → Except Unit VoterLedger
  | [], l => .ok l
  | b :: bs, l =>
    match VoterLedger.apply_transactions b l with
    | .error e => .error e
    | .ok l' => VoterLedger.applyAll bs l'

/-- Sample choice (selected) used by concrete instances. -/
def sChoiceX : Choice :=
  { oid := 0, description := "X", chosen := true }

/-- Sample choice (not selected) used by concrete instances. -/
def sChoiceY : Choice :=
  { oid := 1, description := "Y", chosen := false }

/-- Sample filled ballot: its choice `X` is selected. -/
def sBallotFilled : Ballot :=
  { oid := 0, id := "b0", election := "e",
    items := [{ title := "Pres", description := "d", maxChoices := 1,
                choices := [sChoiceX, sChoiceY] }] }

/-- Sample unfilled ballot, the same object before any selection. -/
def sBallotBlank : Ballot :=
  { oid := 0, id := "b0", election := "e",
    items := [{ title := "Pres", description := "d", maxChoices := 1,
                choices := [{ sChoiceX with chosen := false }, sChoiceY] }] }

/-- Sample vote-ledger over the blank ballot (snapshot at election start). -/
def sVoteLedger : VoteLedger :=
  { ballotState := [(0, .created)], cCreated := 1, cIssued := 0, cUsed := 0,
    tally := [(0, 0), (1, 0)], totalBallots := 1 }

/-- Transaction store for the C1 instance: one `Created → Issued` transaction
over the filled ballot. -/
def c1Store : Nat → VoteTx :=
  fun _ => { ballot := sBallotFilled, prev := .created, new := .issued }

/-- Transaction store for the C5/C4 instances: transaction 0 is
`Created → Issued`, transaction 1 is `Issued → Used`, both over the filled
ballot. -/
def sPairStore : Nat → VoteTx :=
  fun i =>
    if i = 0 then { ballot := sBallotFilled, prev := .created, new := .issued }
    else { ballot := sBallotFilled, prev := .issued, new := .used }

/-- Transaction store for the C6 instance: two transactions for the same
ballot with the same satisfied precondition `Created` but different targets. -/
def c6Store : Nat → VoteTx :=
  fun i =>
    if i = 0 then { ballot := sBallotBlank, prev := .created, new := .issued }
    else { ballot := sBallotBlank, prev := .created, new := .used }

/-- Ballot template for the C10 instance (choice ids 0 and 1 before copying). -/
def c10Items : List BallotItem :=
  [{ title := "Pres", description := "d", maxChoices := 1,
     choices := [{ oid := 0, description := "X", chosen := false },
                 { oid := 1, description := "Y", chosen := false }] }]

/-- The two generated ballots of the C10 instance: ballot 0 carries choice
objects 10 and 11, ballot 1 carries choice objects 20 and 21. -/
def c10Ballots : List Ballot :=
  generate_ballots "e" c10Items 10 2

/-- Ballot 1 of the C10 instance, before voting. -/
def c10B1 : Ballot :=
  (c10Ballots.getD 1 sBallotBlank)

/-- Ballot 1 of the C10 instance after the voter selects `X` (the same object,
mutated in place by `Choice.select`). -/
def c10B1Filled : Ballot :=
  { c10B1 with items := c10B1.items.map (BallotItem.vote "X") }

/-- Transaction store for the C10 instance: transaction 0 issues ballot 1
(still blank at that point), transaction 1 consumes it after voting. -/
def c10Store : Nat → VoteTx :=
  fun i =>
    if i = 0 then { ballot := c10B1, prev := .created, new := .issued }
    else { ballot := c10B1Filled, prev := .issued, new := .used }

/-- Sample voter and voter transactions for concrete instances. -/
def sVoter : Voter :=
  { oid := 0, name := "Ann", id := "v0" }

/-- The legal voter transaction over `sVoter`. -/
def sVoterTx : VoterTx :=
  { voter := sVoter, prev := .notVoted, new := .voted }

/-- Issuance transaction of the C8 instance: phase-1 signed with
`include_chosen=False` by the ballot generator (key 7). -/
def c8IssueTx : SVoteTx :=
  mkVoteTransaction sBallotBlank .created .issued false 7

/-- Cast-vote transaction of the C8 instance: phase-1 signed with default
kwargs by a voting computer (key 9). -/
def c8UsedTx : SVoteTx :=
  mkVoteTransaction sBallotFilled .issued .used true 9

/-- Vote ledger of the C4/C5 witness instances: the sample ballot is already
`Issued` (its `Created → Issued` transaction has been applied). -/
def sLedgerIssued : VoteLedger :=
  { ballotState := [(0, .issued)], cCreated := 0, cIssued := 1, cUsed := 0,
    tally := [(0, 0), (1, 0)], totalBallots := 1 }

/-- Voter ledger of the C4 witness instance: the sample voter has voted. -/
def sVoterLedgerVoted : VoterLedger :=
  { voterState := [(0, .voted)], cNotVoted := 0, cVoted := 1, registeredVoters := 1 }

/-- Pointwise lower bound between tally maps: every registered tally value can
only have grown. -/
def tallyLe (t u : List (Nat × Int)) : Prop :=
  ∀ k v, alookup t k = some v → ∃ w, alookup u k = some w ∧ v ≤ w

/-- Two `_reiterate` flag states that agree on every transaction other than
`j`. -/
def flagsAgree (j : Nat) (f g : Flags) : Prop :=
  ∀ i, i ≠ j → alookup f i = alookup g i

theorem alookup_aset_self {α : Type} (m : List (Nat × α)) (k : Nat) (v : α) :
    alookup (aset m k v) k = some v := by
  induction m with
  | nil => simp [aset, alookup]
  | cons p t ih =>
    obtain ⟨k1, v1⟩ := p
    by_cases h : k1 = k
    · subst h; simp [aset, alookup]
    · simp [aset, alookup, h, ih]

theorem alookup_aset_ne {α : Type} (m : List (Nat × α)) {k k0 : Nat} (v : α)
    (h : k ≠ k0) : alookup (aset m k v) k0 = alookup m k0 := by
  induction m with
  | nil => simp [aset, alookup, h]
  | cons p t ih =>
    obtain ⟨k1, v1⟩ := p
    by_cases h1 : k1 = k
    · subst h1; simp [aset, alookup, h]
    · simp [aset, alookup, h1, ih]

theorem setCounter_tally (l : VoteLedger) (s : BState) (v : Int) :
    (l.setCounter s v).tally = l.tally := by
  cases s <;> rfl

theorem setCounter_ballotState (l : VoteLedger) (s : BState) (v : Int) :
    (l.setCounter s v).ballotState = l.ballotState := by
  cases s <;> rfl

theorem setCounter_totalBallots (l : VoteLedger) (s : BState) (v : Int) :
    (l.setCounter s v).totalBallots = l.totalBallots := by
  cases s <;> rfl

theorem counter_setCounter (l : VoteLedger) (s : BState) (v : Int) :
    (l.setCounter s v).counter s = v := by
  cases s <;> rfl

theorem counterSum_setCounter (l : VoteLedger) (s : BState) (v : Int) :
    (l.setCounter s v).counterSum = l.counterSum - l.counter s + v := by
  cases s <;>
    simp [VoteLedger.setCounter, VoteLedger.counterSum, VoteLedger.counter] <;> ring

theorem voteApplyCore_ballotState (l : VoteLedger) (tx : VoteTx) (old : BState) :
    (voteApplyCore l tx old).ballotState = aset l.ballotState tx.ballot.oid tx.new := by
  simp [voteApplyCore, setCounter_ballotState]

theorem voteApplyCore_tally (l : VoteLedger) (tx : VoteTx) (old : BState) :
    (voteApplyCore l tx old).tally = l.tally := by
  simp [voteApplyCore, setCounter_tally]

theorem voteApplyCore_totalBallots (l : VoteLedger) (tx : VoteTx) (old : BState) :
    (voteApplyCore l tx old).totalBallots = l.totalBallots := by
  simp [voteApplyCore, setCounter_totalBallots]

theorem counter_mk_ballotState (l : VoteLedger) (bs : List (Nat × BState)) (s : BState) :
    ({ l with ballotState := bs } : VoteLedger).counter s = l.counter s := by
  cases s <;> rfl

theorem counterSum_mk_ballotState (l : VoteLedger) (bs : List (Nat × BState)) :
    ({ l with ballotState := bs } : VoteLedger).counterSum = l.counterSum := rfl

theorem counterSum_mk_tally (l : VoteLedger) (t : List (Nat × Int)) :
    ({ l with tally := t } : VoteLedger).counterSum = l.counterSum := rfl

theorem voteApplyCore_counterSum (l : VoteLedger) (tx : VoteTx) (old : BState) :
    (voteApplyCore l tx old).counterSum = l.counterSum := by
  simp only [voteApplyCore]
  rw [counterSum_setCounter, counterSum_setCounter]
  simp only [VoteLedger.counterSum]
  ring

theorem tallyAdd_lookup : ∀ (cs : List Choice) (t u : List (Nat × Int)),
    tallyAdd t cs = some u →
    ∀ k, alookup u k = (alookup t k).map fun v => v + (cs.countP (fun c => c.oid == k) : Int) := by
  intro cs
  induction cs with
  | nil =>
    intro t u h k
    rw [tallyAdd] at h
    injection h with h
    subst h
    cases hl : alookup t k <;> simp [hl]
  | cons c cs ih =>
    intro t u h k
    rw [tallyAdd] at h
    cases hc : alookup t c.oid with
    | none => rw [hc] at h; exact absurd h (by simp)
    | some v =>
      rw [hc] at h
      simp only at h
      have hk := ih _ _ h k
      by_cases hck : c.oid = k
      · subst hck
        rw [alookup_aset_self] at hk
        rw [hk, hc]
        simp [List.countP_cons]
        ring
      · rw [alookup_aset_ne _ _ hck] at hk
        rw [hk]
        simp [List.countP_cons, hck]

theorem tallyAdd_le (cs : List Choice) (t u : List (Nat × Int))
    (h : tallyAdd t cs = some u) : tallyLe t u := by
  intro k v hv
  have hl := tallyAdd_lookup cs t u h k
  rw [hv] at hl
  refine ⟨_, hl, ?_⟩; simp only []; omega

theorem tallyAdd_dom : ∀ (cs : List Choice) (t u : List (Nat × Int)),
    tallyAdd t cs = some u → ∀ c ∈ cs, (alookup t c.oid).isSome := by
  intro cs
  induction cs with
  | nil => intro t u h c hc; simp at hc
  | cons d ds ih =>
    intro t u h c hc
    rw [tallyAdd] at h
    cases hd : alookup t d.oid with
    | none => rw [hd] at h; exact absurd h (by simp)
    | some v =>
      rw [hd] at h
      simp only at h
      rcases List.mem_cons.mp hc with h1 | h1
      · subst h1; rw [hd]; rfl
      · have h2 := ih _ _ h c h1
        by_cases hck : d.oid = c.oid
        · rw [← hck, hd]; rfl
        · rwa [alookup_aset_ne _ _ hck] at h2

theorem tallyAdd_isSome (cs : List Choice) (t : List (Nat × Int))
    (hdom : ∀ c ∈ cs, (alookup t c.oid).isSome) : (tallyAdd t cs).isSome := by
  induction cs generalizing t with
  | nil => simp [tallyAdd]
  | cons c cs ih =>
    rw [tallyAdd]
    cases hc : alookup t c.oid with
    | none =>
      have h1 := hdom c (by simp)
      rw [hc] at h1
      simp at h1
    | some v =>
      simp only
      refine ih _ fun c2 hc2 => ?_
      by_cases hck : c.oid = c2.oid
      · rw [← hck, alookup_aset_self]; rfl
      · rw [alookup_aset_ne _ _ hck]
        exact hdom c2 (by simp [hc2])

theorem tallyAdd_twice (cs : List Choice) (t u : List (Nat × Int))
    (h : tallyAdd t cs = some u) : ∃ w, tallyAdd u cs = some w := by
  have hdom : ∀ c ∈ cs, (alookup u c.oid).isSome := by
    intro c hc
    have hl := tallyAdd_lookup cs t u h c.oid
    have hdt := tallyAdd_dom cs t u h c hc
    rw [hl]
    cases hx : alookup t c.oid
    · rw [hx] at hdt; simp at hdt
    · simp [hx]
  have h2 := tallyAdd_isSome cs u hdom
  cases hw : tallyAdd u cs
  · rw [hw] at h2; simp at h2
  · exact ⟨_, rfl⟩

theorem voteStep_ok_inv {store : Nat → VoteTx} {iter : Nat} {l : VoteLedger} {f : Flags}
    {i : Nat} {l' : VoteLedger} {f' : Flags}
    (h : voteStep store iter l f i = .ok (l', f')) :
    l'.counterSum = l.counterSum ∧ l'.totalBallots = l.totalBallots ∧
    tallyLe l.tally l'.tally ∧
    ∀ b s, alookup l.ballotState b = some s →
      ∃ s', alookup l'.ballotState b = some s' ∧ (legalVoteTx (store i) → s.rank ≤ s'.rank) := by
  rw [voteStep] at h
  split at h
  · injection h with h
    injection h with h1 h2
    subst h1
    exact ⟨rfl, rfl, fun k v hv => ⟨v, hv, le_refl v⟩,
      fun b s hb => ⟨s, hb, fun _ => le_refl _⟩⟩
  · split at h
    · exact absurd h (by simp)
    · rename_i old heq
      split at h
      · injection h with h
        injection h with h1 h2
        subst h1
        exact ⟨rfl, rfl, fun k v hv => ⟨v, hv, le_refl v⟩,
          fun b s hb => ⟨s, hb, fun _ => le_refl _⟩⟩
      · rename_i hpe
        split at h
        · exact absurd h (by simp)
        · rename_i t heq2
          injection h with h
          injection h with h1 h2
          subst h1
          have hprev : (store i).prev = old := not_not.mp hpe
          refine ⟨?_, ?_, ?_, ?_⟩
          · rw [counterSum_mk_tally, voteApplyCore_counterSum]
          · show ({ voteApplyCore l (store i) old with tally := t} : VoteLedger).totalBallots = _
            rw [show ({ voteApplyCore l (store i) old with tally := t} : VoteLedger).totalBallots
              = (voteApplyCore l (store i) old).totalBallots from rfl, voteApplyCore_totalBallots]
          · exact tallyAdd_le _ _ _ heq2
          · intro b s hb
            have hbs : ({ voteApplyCore l (store i) old with tally := t} : VoteLedger).ballotState
                = aset l.ballotState (store i).ballot.oid (store i).new := by
              rw [show ({ voteApplyCore l (store i) old with tally := t} : VoteLedger).ballotState
                = (voteApplyCore l (store i) old).ballotState from rfl, voteApplyCore_ballotState]
            by_cases hbo : b = (store i).ballot.oid
            · subst hbo
              rw [hb] at heq
              injection heq with heq
              refine ⟨(store i).new, ?_, ?_⟩
              · rw [hbs, alookup_aset_self]
              · intro hleg
                rcases hleg with ⟨hp, hn⟩ | ⟨hp, hn⟩ <;>
                  rw [heq, ← hprev, hp, hn] <;> simp [BState.rank]
            · refine ⟨s, ?_, fun _ => le_refl _⟩
              rw [hbs, alookup_aset_ne _ _ (fun hx => hbo hx.symm)]
              exact hb



theorem tallyLe_trans {a b c : List (Nat × Int)} (h1 : tallyLe a b) (h2 : tallyLe b c) :
    tallyLe a c := by
  intro k v hv
  obtain ⟨w, hw, hvw⟩ := h1 k v hv
  obtain ⟨x, hx, hwx⟩ := h2 k w hw
  exact ⟨x, hx, le_trans hvw hwx⟩

theorem votePass_ok_inv {store : Nat → VoteTx} {iter : Nat} :
    ∀ (ids : List Nat) {l : VoteLedger} {f : Flags} {l' : VoteLedger} {f' : Flags},
    votePass store iter l f ids = .ok (l', f') →
    l'.counterSum = l.counterSum ∧ l'.totalBallots = l.totalBallots ∧
    tallyLe l.tally l'.tally ∧
    ∀ b s, alookup l.ballotState b = some s →
      ∃ s', alookup l'.ballotState b = some s' ∧
        ((∀ i ∈ ids, legalVoteTx (store i)) → s.rank ≤ s'.rank) := by
  intro ids
  induction ids with
  | nil =>
    intro l f l' f' h
    rw [votePass] at h
    injection h with h
    injection h with h1 h2
    subst h1
    exact ⟨rfl, rfl, fun k v hv => ⟨v, hv, le_refl v⟩,
      fun b s hb => ⟨s, hb, fun _ => le_refl _⟩⟩
  | cons i ids ih =>
    intro l f l' f' h
    rw [votePass] at h
    cases hs : voteStep store iter l f i with
    | error e => rw [hs] at h; exact absurd h (by simp)
    | ok p =>
      obtain ⟨l1, f1⟩ := p
      rw [hs] at h
      simp only at h
      obtain ⟨hc1, ht1, htl1, hm1⟩ := voteStep_ok_inv hs
      obtain ⟨hc2, ht2, htl2, hm2⟩ := ih h
      refine ⟨hc2.trans hc1, ht2.trans ht1, tallyLe_trans htl1 htl2, ?_⟩
      intro b s hb
      obtain ⟨s1, hb1, hr1⟩ := hm1 b s hb
      obtain ⟨s2, hb2, hr2⟩ := hm2 b s1 hb1
      refine ⟨s2, hb2, fun hlegs => ?_⟩
      exact le_trans (hr1 (hlegs i (by simp)))
        (hr2 fun i2 hi2 => hlegs i2 (by simp [hi2]))

theorem apply_transactions_ok_inv {store : Nat → VoteTx} {txids : List Nat}
    {l l' : VoteLedger} (h : VoteLedger.apply_transactions store txids l = .ok l') :
    l'.counterSum = l.counterSum ∧ l'.totalBallots = l.totalBallots ∧
    tallyLe l.tally l'.tally ∧
    ∀ b s, alookup l.ballotState b = some s →
      ∃ s', alookup l'.ballotState b = some s' ∧
        ((∀ i ∈ txids, legalVoteTx (store i)) → s.rank ≤ s'.rank) := by
  rw [VoteLedger.apply_transactions] at h
  cases h0 : votePass store 0 l [] txids with
  | error e => rw [h0] at h; exact absurd h (by simp)
  | ok p =>
    obtain ⟨l1, f1⟩ := p
    rw [h0] at h
    simp only at h
    cases h1 : votePass store 1 l1 f1 txids with
    | error e => rw [h1] at h; exact absurd h (by simp)
    | ok q =>
      obtain ⟨l2, f2⟩ := q
      rw [h1] at h
      simp only at h
      injection h with h
      subst h
      obtain ⟨hc1, ht1, htl1, hm1⟩ := votePass_ok_inv txids h0
      obtain ⟨hc2, ht2, htl2, hm2⟩ := votePass_ok_inv txids h1
      refine ⟨hc2.trans hc1, ht2.trans ht1, tallyLe_trans htl1 htl2, ?_⟩
      intro b s hb
      obtain ⟨s1, hb1, hr1⟩ := hm1 b s hb
      obtain ⟨s2, hb2, hr2⟩ := hm2 b s1 hb1
      exact ⟨s2, hb2, fun hlegs => le_trans (hr1 hlegs) (hr2 hlegs)⟩

theorem applyAll_ok_inv {store : Nat → VoteTx} :
    ∀ (batches : List (List Nat)) {l l' : VoteLedger},
    VoteLedger.applyAll store batches l = .ok l' →
    l'.counterSum = l.counterSum ∧ l'.totalBallots = l.totalBallots := by
  intro batches
  induction batches with
  | nil =>
    intro l l' h
    rw [VoteLedger.applyAll] at h
    injection h with h
    subst h
    exact ⟨rfl, rfl⟩
  | cons b bs ih =>
    intro l l' h
    rw [VoteLedger.applyAll] at h
    cases hb : VoteLedger.apply_transactions store b l with
    | error e => rw [hb] at h; exact absurd h (by simp)
    | ok l1 =>
      rw [hb] at h
      simp only at h
      obtain ⟨hc1, ht1, _, _⟩ := apply_transactions_ok_inv hb
      obtain ⟨hc2, ht2⟩ := ih h
      exact ⟨hc2.trans hc1, ht2.trans ht1⟩

theorem mkVoteLedger_inv {ballots : List Ballot} {l0 : VoteLedger}
    (h : mkVoteLedger ballots = some l0) :
    l0.counterSum = (ballots.length : Int) ∧ l0.totalBallots = ballots.length := by
  cases ballots with
  | nil => exact absurd h (by simp [mkVoteLedger])
  | cons b bs =>
    rw [mkVoteLedger] at h
    injection h with h
    subst h
    constructor
    · show (((b :: bs).length : Int) + 0 + 0) = _
      ring
    · rfl



theorem vSetCounter_voterState (l : VoterLedger) (s : VState) (v : Int) :
    (l.setCounter s v).voterState = l.voterState := by
  cases s <;> rfl

theorem vSetCounter_registered (l : VoterLedger) (s : VState) (v : Int) :
    (l.setCounter s v).registeredVoters = l.registeredVoters := by
  cases s <;> rfl

theorem vCounterSum_setCounter (l : VoterLedger) (s : VState) (v : Int) :
    (l.setCounter s v).counterSum = l.counterSum - l.counter s + v := by
  cases s <;> simp [VoterLedger.setCounter, VoterLedger.counterSum, VoterLedger.counter]
  all_goals ring

theorem voterStep_ok_inv {l : VoterLedger} {tx : VoterTx} {l' : VoterLedger}
    (h : voterStep l tx = .ok l') :
    l'.counterSum = l.counterSum ∧ l'.registeredVoters = l.registeredVoters ∧
    ∀ b s, alookup l.voterState b = some s →
      ∃ s', alookup l'.voterState b = some s' ∧
        (legalVoterTx tx → s = .voted → s' = .voted) := by
  rw [voterStep] at h
  split at h
  · exact absurd h (by simp)
  · rename_i cur heq
    split at h
    · injection h with h
      subst h
      exact ⟨rfl, rfl, fun b s hb => ⟨s, hb, fun _ hs => hs⟩⟩
    · rename_i hcur
      injection h with h
      subst h
      have hcur2 : cur = tx.prev := not_not.mp hcur
      refine ⟨?_, ?_, ?_⟩
      · rw [vCounterSum_setCounter, vCounterSum_setCounter]
        simp only [VoterLedger.counterSum]
        ring
      · rw [vSetCounter_registered, vSetCounter_registered]
      · intro b s hb
        by_cases hbo : b = tx.voter.oid
        · subst hbo
          rw [hb] at heq
          injection heq with heq
          refine ⟨tx.new, ?_, ?_⟩
          · rw [vSetCounter_voterState, vSetCounter_voterState]
            exact alookup_aset_self _ _ _
          · intro hleg hsv
            subst hsv
            rw [hcur2, hleg.1] at heq
            simp at heq
        · refine ⟨s, ?_, fun _ hs => hs⟩
          rw [vSetCounter_voterState, vSetCounter_voterState,
            alookup_aset_ne _ _ (fun hx => hbo hx.symm)]
          exact hb

theorem voter_apply_ok_inv :
    ∀ (txs : List VoterTx) {l l' : VoterLedger},
    VoterLedger.apply_transactions txs l = .ok l' →
    l'.counterSum = l.counterSum ∧ l'.registeredVoters = l.registeredVoters ∧
    ∀ b s, alookup l.voterState b = some s →
      ∃ s', alookup l'.voterState b = some s' ∧
        ((∀ u ∈ txs, legalVoterTx u) → s = .voted → s' = .voted) := by
  intro txs
  induction txs with
  | nil =>
    intro l l' h
    rw [VoterLedger.apply_transactions] at h
    injection h with h
    subst h
    exact ⟨rfl, rfl, fun b s hb => ⟨s, hb, fun _ hs => hs⟩⟩
  | cons tx txs ih =>
    intro l l' h
    rw [VoterLedger.apply_transactions] at h
    cases hs : voterStep l tx with
    | error e => rw [hs] at h; exact absurd h (by simp)
    | ok l1 =>
      rw [hs] at h
      simp only at h
      obtain ⟨hc1, hr1, hm1⟩ := voterStep_ok_inv hs
      obtain ⟨hc2, hr2, hm2⟩ := ih h
      refine ⟨hc2.trans hc1, hr2.trans hr1, ?_⟩
      intro b s hb
      obtain ⟨s1, hb1, hv1⟩ := hm1 b s hb
      obtain ⟨s2, hb2, hv2⟩ := hm2 b s1 hb1
      refine ⟨s2, hb2, fun hlegs hs0 => ?_⟩
      exact hv2 (fun u hu => hlegs u (by simp [hu])) (hv1 (hlegs tx (by simp)) hs0)

theorem voter_applyAll_ok_inv :
    ∀ (batches : List (List VoterTx)) {l l' : VoterLedger},
    VoterLedger.applyAll batches l = .ok l' →
    l'.counterSum = l.counterSum ∧ l'.registeredVoters = l.registeredVoters := by
  intro batches
  induction batches with
  | nil =>
    intro l l' h
    rw [VoterLedger.applyAll] at h
    injection h with h
    subst h
    exact ⟨rfl, rfl⟩
  | cons b bs ih =>
    intro l l' h
    rw [VoterLedger.applyAll] at h
    cases hb : VoterLedger.apply_transactions b l with
    | error e => rw [hb] at h; exact absurd h (by simp)
    | ok l1 =>
      rw [hb] at h
      simp only at h
      obtain ⟨hc1, hr1, _⟩ := voter_apply_ok_inv b hb
      obtain ⟨hc2, hr2⟩ := ih h
      exact ⟨hc2.trans hc1, hr2.trans hr1⟩

theorem mkVoterLedger_inv (voters : List Voter) :
    (mkVoterLedger voters).counterSum = (voters.length : Int) ∧
    (mkVoterLedger voters).registeredVoters = voters.length := by
  constructor
  · show ((voters.length : Int) + 0) = _
    ring
  · rfl

/-- C3: for every vote or voter ledger produced by initialization or by any
sequence of `apply_transactions` calls, the per-state aggregate counters sum
to the number of entities recorded at initialization (`Created+Issued+Used`
for ballots, `NotVoted+Voted` for voters). -/
theorem C3_counter_invariant :
    (∀ (ballots : List Ballot) (l0 : VoteLedger) (store : Nat → VoteTx)
        (batches : List (List Nat)) (l : VoteLedger),
        mkVoteLedger ballots = some l0 →
        VoteLedger.applyAll store batches l0 = .ok l →
        l.counterSum = (ballots.length : Int) ∧ l.totalBallots = ballots.length) ∧
    (∀ (voters : List Voter) (batches : List (List VoterTx)) (l : VoterLedger),
        VoterLedger.applyAll batches (mkVoterLedger voters) = .ok l →
        l.counterSum = (voters.length : Int) ∧ l.registeredVoters = voters.length) := by
  constructor
  · intro ballots l0 store batches l h0 h
    obtain ⟨hc0, ht0⟩ := mkVoteLedger_inv h0
    obtain ⟨hc, ht⟩ := applyAll_ok_inv batches h
    exact ⟨hc.trans hc0, ht.trans ht0⟩
  · intro voters batches l h
    obtain ⟨hc0, ht0⟩ := mkVoterLedger_inv voters
    obtain ⟨hc, ht⟩ := voter_applyAll_ok_inv batches h
    exact ⟨hc.trans hc0, ht.trans ht0⟩

/-- C3 witness: the invariant instantiated on a concrete one-ballot election
(issue then consume the ballot) and a concrete one-voter election. -/
theorem C3_witness :
    ((⟨[(0, .used)], 0, 0, 1, [(0, 2), (1, 0)], 1⟩ : VoteLedger).counterSum =
        (([sBallotBlank] : List Ballot).length : Int) ∧
      (⟨[(0, .used)], 0, 0, 1, [(0, 2), (1, 0)], 1⟩ : VoteLedger).totalBallots =
        ([sBallotBlank] : List Ballot).length) ∧
    ((⟨[(0, .voted)], 0, 1, 1⟩ : VoterLedger).counterSum =
        (([sVoter] : List Voter).length : Int) ∧
      (⟨[(0, .voted)], 0, 1, 1⟩ : VoterLedger).registeredVoters =
        ([sVoter] : List Voter).length) :=
  ⟨C3_counter_invariant.1 [sBallotBlank] ⟨[(0, .created)], 1, 0, 0, [(0, 0), (1, 0)], 1⟩
      sPairStore [[0], [1]] _ (by decide) (by decide),
    C3_counter_invariant.2 [sVoter] [[sVoterTx]] _ (by decide)⟩

/-- C2 counterexample: the exposed chain operation `add_block_2` accepts a
block whose previous-link (`none`) does not equal the current head (block 1)
and installs it as the new head after rewriting that link, while `add_block`
on the same input correctly rejects it. -/
theorem C2_counterexample :
    Blockchain.add_block_2 ⟨some ⟨1, none⟩⟩ ⟨2, none⟩ = ⟨some ⟨2, some 1⟩⟩ ∧
      (⟨2, none⟩ : PBlock).prev ≠ some 1 ∧
      Blockchain.add_block ⟨some ⟨1, none⟩⟩ ⟨2, none⟩ = ⟨some ⟨1, none⟩⟩ := by
  decide

/-- C2 amended: `add_block` accepts a block iff its previous-link equals the
current head (the `none` sentinel when the chain is empty) and a rejection
leaves the head unchanged; `remove_block` always raises; but `add_block_2`
unconditionally installs any block as head after overwriting its
previous-link with the current head. -/
theorem C2_amended_chain_gate (c : Blockchain) (b : PBlock) :
    (b.prev = c.current_block.map PBlock.oid → c.add_block b = ⟨some b⟩) ∧
    (b.prev ≠ c.current_block.map PBlock.oid → c.add_block b = c) ∧
    c.remove_block b = .error () ∧
    c.add_block_2 b = ⟨some { b with prev := c.current_block.map PBlock.oid }⟩ := by
  refine ⟨fun h => ?_, fun h => ?_, rfl, rfl⟩ <;> simp [Blockchain.add_block, h]

/-- C2 witness: the amended gate at concrete inputs — an extending block is
installed, a non-extending block is rejected with the head unchanged. -/
theorem C2_witness :
    Blockchain.add_block ⟨some ⟨1, none⟩⟩ ⟨2, some 1⟩ = ⟨some ⟨2, some 1⟩⟩ ∧
      Blockchain.add_block ⟨some ⟨1, none⟩⟩ ⟨3, none⟩ = ⟨some ⟨1, none⟩⟩ :=
  ⟨(C2_amended_chain_gate ⟨some ⟨1, none⟩⟩ ⟨2, some 1⟩).1 (by decide),
    (C2_amended_chain_gate ⟨some ⟨1, none⟩⟩ ⟨3, none⟩).2.1 (by decide)⟩

/-- C6: the code resolves two same-precondition, different-target transactions
for one ballot by evaluation order — the first-processed transaction is
applied and the other is merely deferred, with nothing reported — instead of
flagging both as conflicting and excluding them: the two orders of the same
conflicting batch produce different accepted snapshots. -/
theorem C6_conflict_order_dependent :
    (VoteLedger.apply_transactions c6Store [0, 1] sVoteLedger).map
        (fun l => (alookup l.ballotState 0, l.cIssued, l.cUsed)) =
      .ok (some .issued, 1, 0) ∧
    (VoteLedger.apply_transactions c6Store [1, 0] sVoteLedger).map
        (fun l => (alookup l.ballotState 0, l.cIssued, l.cUsed)) =
      .ok (some .used, 0, 1) ∧
    (c6Store 0).ballot = (c6Store 1).ballot ∧
    (c6Store 0).prev = (c6Store 1).prev ∧
    (c6Store 0).new ≠ (c6Store 1).new := by
  decide

/-- C8: after phase-2 `timestamp_and_sign_transactions`, a ballot-issuance
transaction (stored kwargs `include_chosen=False`) carries the shared
timestamp and is marked timestamped, but its new signature was computed with
the DEFAULT kwargs while verification recomputes the payload with the STORED
kwargs, so verification fails; a transaction whose stored kwargs match the
default still verifies. -/
theorem C8_resign_kwargs_mismatch :
    (timestamp_and_sign_transactions 5 [c8IssueTx]).map
        (fun t => (t.timestamped, t.time, t.verify)) = [(true, some 5, false)] ∧
      c8IssueTx.verify = true ∧
      (timestamp_and_sign_transactions 5 [c8UsedTx]).map
        (fun t => (t.timestamped, t.time, t.verify)) = [(true, some 5, true)] := by
  decide

/-- C9: constructing any block raises before a header is produced —
`Block.__init__` calls the nonexistent `Block.get_hash` (`base.py:423`), so no
header over `(previous header, tx signatures, ledger hash, timestamp)` is ever
computed. -/
theorem C9_block_construction_raises :
    Block.construct [] sVoteLedger 1 none = .error () := rfl

/-- C10: in a two-ballot election the tally map is keyed by the first ballot's
own `Choice` objects only (ids 10, 11) while ballot 1 carries its own deep
copies (ids 20, 21); issuing ballot 1 succeeds, but applying its
`Issued → Used` transaction with choice `X` selected looks up the unregistered
Choice object 20 and raises `KeyError`. -/
theorem C10_tally_keyerror :
    ((mkVoteLedger c10Ballots).map fun L =>
        (alookup L.tally 10, alookup L.tally 20,
          (VoteLedger.apply_transactions c10Store [0] L).map fun L1 =>
            VoteLedger.apply_transactions c10Store [1] L1)) =
      some (some 0, none, .ok (.error ())) ∧
    c10B1Filled.get_selected_choices.map Choice.oid = [20] := by
  decide

/-- C1 counterexample: a `Created → Issued` transaction (not a transition into
`Used`) over a ballot exposing a selected choice increments that choice's
tally from 0 to 1. -/
theorem C1_counterexample :
    ((mkVoteLedger [sBallotFilled]).map fun L =>
        (VoteLedger.apply_transactions c1Store [0] L).map fun L1 =>
          alookup L1.tally 0) =
      some (.ok (some 1)) ∧
      (c1Store 0).new = .issued ∧ (c1Store 0).new ≠ .used := by
  decide

theorem add_transaction_verified_mem {n : NodeState} {t u : NTx}
    (h : u ∈ (n.add_transaction t).verified) :
    u ∈ n.verified ∨ (u = t ∧ verify_transaction t = true) := by
  rw [NodeState.add_transaction] at h
  split at h
  · rename_i hacc
    split at h
    · exact .inl h
    · rcases List.mem_cons.mp h with h1 | h1
      · exact .inr ⟨h1, ((Bool.and_eq_true _ _).mp hacc).2⟩
      · exact .inl h1
  · exact .inl h

theorem run_verified_closure :
    ∀ (ops : List NodeOp) (n : NodeState) (u : NTx),
    u ∈ (n.run ops).verified →
    u ∈ n.verified ∨ verify_transaction u = true := by
  intro ops
  induction ops with
  | nil => intro n u h; exact .inl h
  | cons op ops ih =>
    intro n u h
    rw [NodeState.run.eq_def] at h
    cases op with
    | recv t =>
      rcases ih _ u h with h1 | h1
      · rcases add_transaction_verified_mem h1 with h2 | ⟨h2, h3⟩
        · exact .inl h2
        · exact .inr (h2 ▸ h3)
      · exact .inr h1
    | createVoter v time =>
      rcases ih _ u h with h1 | h1
      · rcases List.mem_cons.mp h1 with h2 | h2
        · subst h2
          exact .inr (by simp [verify_transaction])
        · exact .inl h2
      · exact .inr h1

/-- C7: `add_transaction` admits a transaction iff the issuer is trusted and
the signature verifies against the recomputed payload; accepted untimestamped
transactions go to `pending`, accepted timestamped ones to `verified`, and
everything else to `rejected`; consequently, over any sequence of incoming
and self-created transactions, a node whose verified set held only verifying
transactions never holds a non-verifying transaction there. -/
theorem C7_admission_gate :
    (∀ (n : NodeState) (t : NTx),
        n.is_node_in_network t.issuer = true → verify_transaction t = true →
        (t.timestamped = false → n.add_transaction t = { n with pending := t :: n.pending }) ∧
        (t.timestamped = true → n.add_transaction t = { n with verified := t :: n.verified })) ∧
    (∀ (n : NodeState) (t : NTx),
        ¬(n.is_node_in_network t.issuer = true ∧ verify_transaction t = true) →
        n.add_transaction t = { n with rejected := t :: n.rejected }) ∧
    (∀ (n : NodeState) (ops : List NodeOp) (u : NTx),
        (∀ w ∈ n.verified, verify_transaction w = true) →
        u ∈ (n.run ops).verified → verify_transaction u = true) := by
  refine ⟨?_, ?_, ?_⟩
  · intro n t h1 h2
    constructor <;> intro h3 <;>
      simp [NodeState.add_transaction, h1, h2, h3]
  · intro n t h1
    have : ¬(n.is_node_in_network t.issuer && verify_transaction t) = true := by
      simpa [Bool.and_eq_true] using h1
    simp [NodeState.add_transaction, this]
  · intro n ops u hv h
    rcases run_verified_closure ops n u h with h1 | h1
    · exact hv u h1
    · exact h1

/-- C7 witness: the gate at concrete inputs — a trusted, verifying,
timestamped transaction lands in `verified`; a trusted transaction whose
signature does not match is rejected; a self-created voter transaction found
in `verified` after a run verifies. -/
theorem C7_witness :
    NodeState.add_transaction ⟨5, [1], [], [], []⟩ ⟨"p", 1, ("p", 1), true⟩ =
        ⟨5, [1], [], [⟨"p", 1, ("p", 1), true⟩], []⟩ ∧
      NodeState.add_transaction ⟨5, [1], [], [], []⟩ ⟨"p", 1, ("q", 1), true⟩ =
        ⟨5, [1], [], [], [⟨"p", 1, ("q", 1), true⟩]⟩ ∧
      verify_transaction ⟨"p", 1, ("p", 1), true⟩ = true :=
  ⟨(C7_admission_gate.1 ⟨5, [1], [], [], []⟩ ⟨"p", 1, ("p", 1), true⟩
      (by decide) (by decide)).2 rfl,
    C7_admission_gate.2.1 ⟨5, [1], [], [], []⟩ ⟨"p", 1, ("q", 1), true⟩ (by decide),
    C7_admission_gate.2.2 ⟨5, [1], [], [], []⟩ [.recv ⟨"p", 1, ("p", 1), true⟩]
      ⟨"p", 1, ("p", 1), true⟩ (by intro w hw; simp at hw) (by decide)⟩

/-- C1 amended: `VoteLedger.apply_transactions` increments a candidate's tally
by 1 per selected choice exposed by the ballot on EVERY applied transaction,
regardless of the transaction's `new_state` (a `Created → Issued` edge with
selected choices bumps tallies exactly like an `Issued → Used` edge); tallies
are monotonically non-decreasing across any replay. -/
theorem C1_amended_tally_on_every_apply :
    (∀ (store : Nat → VoteTx) (i : Nat) (l : VoteLedger) (t : List (Nat × Int)),
        alookup l.ballotState (store i).ballot.oid = some (store i).prev →
        tallyAdd l.tally (store i).ballot.get_selected_choices = some t →
        VoteLedger.apply_transactions store [i] l =
          .ok { voteApplyCore l (store i) (store i).prev with tally := t } ∧
        ∀ k, alookup t k = (alookup l.tally k).map
          fun v => v + ((store i).ballot.get_selected_choices.countP
            (fun c => c.oid == k) : Int)) ∧
    (∀ (store : Nat → VoteTx) (txids : List Nat) (l l' : VoteLedger),
        VoteLedger.apply_transactions store txids l = .ok l' →
        tallyLe l.tally l'.tally) := by
  constructor
  · intro store i l t h1 h2
    have hstep : voteStep store 0 l [] i =
        .ok ({ voteApplyCore l (store i) (store i).prev with tally := t }, aset [] i false) := by
      rw [voteStep]
      simp [h1, h2]
    have hpass0 : votePass store 0 l [] [i] =
        .ok ({ voteApplyCore l (store i) (store i).prev with tally := t }, [(i, false)]) := by
      simp only [votePass, hstep, aset]
    have hstep1 : voteStep store 1
        ({ voteApplyCore l (store i) (store i).prev with tally := t }) [(i, false)] i =
        .ok ({ voteApplyCore l (store i) (store i).prev with tally := t }, [(i, false)]) := by
      rw [voteStep]
      simp [alookup]
    have hpass1 : votePass store 1
        ({ voteApplyCore l (store i) (store i).prev with tally := t }) [(i, false)] [i] =
        .ok ({ voteApplyCore l (store i) (store i).prev with tally := t }, [(i, false)]) := by
      simp only [votePass, hstep1]
    constructor
    · rw [VoteLedger.apply_transactions, hpass0]
      simp only
      rw [hpass1]
    · exact tallyAdd_lookup _ _ _ h2
  · intro store txids l l' h
    exact (apply_transactions_ok_inv h).2.2.1

/-- C1 witness: on a one-ballot ledger whose ballot has choice `X` selected,
the `Created → Issued` transaction is applied once and bumps the tally of
choice 0 from 0 to 1, and the tally map is pointwise non-decreasing. -/
theorem C1_witness :
    (VoteLedger.apply_transactions c1Store [0] sVoteLedger =
        .ok { voteApplyCore sVoteLedger (c1Store 0) (c1Store 0).prev with
                tally := [(0, 1), (1, 0)] } ∧
      ∀ k, alookup [(0, 1), (1, 0)] k = (alookup sVoteLedger.tally k).map
        fun v => v + ((c1Store 0).ballot.get_selected_choices.countP
          (fun c => c.oid == k) : Int)) ∧
    tallyLe sVoteLedger.tally [(0, 1), (1, 0)] :=
  ⟨C1_amended_tally_on_every_apply.1 c1Store 0 sVoteLedger [(0, 1), (1, 0)]
      (by decide) (by decide),
    C1_amended_tally_on_every_apply.2 c1Store [0] sVoteLedger
      ⟨[(0, .issued)], 0, 1, 0, [(0, 1), (1, 0)], 1⟩ (by decide)⟩

/-- C5: replaying the two precondition-consistent edges of one ballot
(`Created → Issued` and `Issued → Used`, same ballot object) as one batch in
either order through the two replay passes yields identical final snapshots. -/
theorem C5_order_insensitive (store : Nat → VoteTx) (i j : Nat) (b : Ballot)
    (l : VoteLedger) (hij : i ≠ j)
    (hi : store i = ⟨b, .created, .issued⟩)
    (hj : store j = ⟨b, .issued, .used⟩)
    (hb : alookup l.ballotState b.oid = some .created) :
    VoteLedger.apply_transactions store [i, j] l =
      VoteLedger.apply_transactions store [j, i] l := by
  have hdefer : ∀ f, voteStep store 0 l f j = .ok (l, aset f j true) := by
    intro f
    rw [voteStep]
    simp [hj, hb]
  cases h0 : tallyAdd l.tally b.get_selected_choices with
  | none =>
    have hsi : ∀ f, voteStep store 0 l f i = .error () := by
      intro f
      rw [voteStep]
      simp [hi, hb, h0]
    rw [VoteLedger.apply_transactions, VoteLedger.apply_transactions]
    simp only [votePass, hsi, hdefer]
  | some t1 =>
    obtain ⟨t2, h2⟩ := tallyAdd_twice b.get_selected_choices l.tally t1 h0
    set L1 : VoteLedger :=
      { voteApplyCore l ⟨b, .created, .issued⟩ .created with tally := t1 } with hL1def
    set L2 : VoteLedger :=
      { voteApplyCore L1 ⟨b, .issued, .used⟩ .issued with tally := t2 } with hL2def
    have hsi : ∀ f, voteStep store 0 l f i = .ok (L1, aset f i false) := by
      intro f
      rw [voteStep]
      simp [hi, hb, h0, hL1def]
    have hl1 : alookup L1.ballotState b.oid = some .issued := by
      show alookup (voteApplyCore l ⟨b, .created, .issued⟩ .created).ballotState b.oid = _
      rw [voteApplyCore_ballotState]
      exact alookup_aset_self _ _ _
    have ht1 : L1.tally = t1 := rfl
    have hstepj0 : ∀ f, voteStep store 0 L1 f j = .ok (L2, aset f j false) := by
      intro f
      rw [voteStep]
      simp [hj, hl1, ht1, h2, hL2def]
    have hstepj1 : ∀ f, alookup f j = some true →
        voteStep store 1 L1 f j = .ok (L2, aset f j false) := by
      intro f hf
      rw [voteStep]
      simp [hf, hj, hl1, ht1, h2, hL2def]
    have hskip : ∀ (L : VoteLedger) (f : Flags) (i0 : Nat),
        alookup f i0 = some false → voteStep store 1 L f i0 = .ok (L, f) := by
      intro L f i0 hf
      rw [voteStep]
      simp [hf]
    have hflagsL : aset (aset ([] : Flags) i false) j false = [(i, false), (j, false)] := by
      simp [aset, hij]
    have hflagsR : aset (aset ([] : Flags) j true) i false = [(j, true), (i, false)] := by
      simp [aset, Ne.symm hij]
    have hpass0L : votePass store 0 l [] [i, j] = .ok (L2, [(i, false), (j, false)]) := by
      simp only [votePass, hsi, hstepj0, hflagsL]
    have hpass0R : votePass store 0 l [] [j, i] = .ok (L1, [(j, true), (i, false)]) := by
      simp only [votePass, hdefer, hsi, hflagsR]
    have hpass1L : votePass store 1 L2 [(i, false), (j, false)] [i, j] =
        .ok (L2, [(i, false), (j, false)]) := by
      have h1 := hskip L2 [(i, false), (j, false)] i (by simp [alookup])
      have h2s := hskip L2 [(i, false), (j, false)] j (by simp [alookup, hij])
      simp only [votePass, h1, h2s]
    have hpass1R : votePass store 1 L1 [(j, true), (i, false)] [j, i] =
        .ok (L2, [(j, false), (i, false)]) := by
      have h1 := hstepj1 [(j, true), (i, false)] (by simp [alookup])
      have hfl : aset ([(j, true), (i, false)] : Flags) j false = [(j, false), (i, false)] := by
        simp [aset]
      have h2s := hskip L2 [(j, false), (i, false)] i (by simp [alookup, Ne.symm hij])
      simp only [votePass, h1, hfl, h2s]
    calc VoteLedger.apply_transactions store [i, j] l = .ok L2 := by
          rw [VoteLedger.apply_transactions, hpass0L]
          simp only
          rw [hpass1L]
      _ = VoteLedger.apply_transactions store [j, i] l := by
          rw [VoteLedger.apply_transactions, hpass0R]
          simp only
          rw [hpass1R]

/-- C5 witness: the two-edge batch for the sample ballot replayed in both
orders over the sample ledger gives the same snapshot. -/
theorem C5_witness :
    VoteLedger.apply_transactions sPairStore [0, 1] sVoteLedger =
      VoteLedger.apply_transactions sPairStore [1, 0] sVoteLedger :=
  C5_order_insensitive sPairStore 0 1 sBallotFilled sVoteLedger
    (by decide) (by decide) (by decide) (by decide)

theorem flagsAgree_aset_both {j : Nat} {f g : Flags} (h : flagsAgree j f g)
    (i : Nat) (b : Bool) : flagsAgree j (aset f i b) (aset g i b) := by
  intro i0 hi0
  by_cases hii : i = i0
  · subst hii
    rw [alookup_aset_self, alookup_aset_self]
  · rw [alookup_aset_ne _ _ hii, alookup_aset_ne _ _ hii]
    exact h i0 hi0

theorem flagsAgree_aset_left {j : Nat} {f g : Flags} (h : flagsAgree j f g)
    (b : Bool) : flagsAgree j (aset f j b) g := by
  intro i0 hi0
  rw [alookup_aset_ne _ _ (Ne.symm hi0)]
  exact h i0 hi0

theorem flagsAgree_aset_right {j : Nat} {f g : Flags} (h : flagsAgree j f g)
    (b : Bool) : flagsAgree j f (aset g j b) := by
  intro i0 hi0
  rw [alookup_aset_ne _ _ (Ne.symm hi0)]
  exact h i0 hi0

theorem stale_prev_ne {store : Nat → VoteTx} {j : Nat} {s : BState}
    (hleg : legalVoteTx (store j)) (hrank : (store j).new.rank ≤ s.rank) :
    (store j).prev ≠ s := by
  intro hx
  rcases hleg with ⟨hp, hn⟩ | ⟨hp, hn⟩ <;>
    rw [hn] at hrank <;> rw [hp] at hx <;> subst hx <;>
    simp [BState.rank] at hrank

theorem voteStep_stale {store : Nat → VoteTx} {j : Nat} {l : VoteLedger}
    (iter : Nat) (f : Flags) (hleg : legalVoteTx (store j)) (hs : staleFor store j l) :
    voteStep store iter l f j = .ok (l, f) ∨
    voteStep store iter l f j = .ok (l, aset f j true) := by
  obtain ⟨s, hlook, hrank⟩ := hs
  rw [voteStep]
  split
  · exact .inl rfl
  · rw [hlook]
    simp only
    rw [if_pos (stale_prev_ne hleg hrank)]
    exact .inr rfl

theorem voteStep_stale0 {store : Nat → VoteTx} {j : Nat} {l : VoteLedger}
    (f : Flags) (hleg : legalVoteTx (store j)) (hs : staleFor store j l) :
    voteStep store 0 l f j = .ok (l, aset f j true) := by
  obtain ⟨s, hlook, hrank⟩ := hs
  rw [voteStep, if_neg (by simp), hlook]
  simp only
  rw [if_pos (stale_prev_ne hleg hrank)]

theorem votePass_append (store : Nat → VoteTx) (iter : Nat) :
    ∀ (xs ys : List Nat) (l : VoteLedger) (f : Flags),
    votePass store iter l f (xs ++ ys) =
      match votePass store iter l f xs with
      | .error e => .error e
      | .ok (l', f') => votePass store iter l' f' ys := by
  intro xs
  induction xs with
  | nil =>
    intro ys l f
    simp only [List.nil_append, votePass]
  | cons x xs ih =>
    intro ys l f
    rw [List.cons_append, votePass, votePass]
    cases hs : voteStep store iter l f x with
    | error e => simp only
    | ok p =>
      obtain ⟨l1, f1⟩ := p
      simp only
      exact ih ys l1 f1

theorem voteStep_aligned {store : Nat → VoteTx} {j : Nat} (iter i : Nat)
    {l : VoteLedger} {f g : Flags}
    (hlegi : legalVoteTx (store i)) (hlegj : legalVoteTx (store j))
    (hfg : flagsAgree j f g) (hs : staleFor store j l) :
    (voteStep store iter l f i = .error () ∧ voteStep store iter l g i = .error ()) ∨
    (∃ l' f' g', voteStep store iter l f i = .ok (l', f') ∧
      voteStep store iter l g i = .ok (l', g') ∧
      flagsAgree j f' g' ∧ staleFor store j l') := by
  by_cases hij : i = j
  · subst hij
    rcases voteStep_stale iter f hlegj hs with h1 | h1 <;>
      rcases voteStep_stale iter g hlegj hs with h2 | h2
    · exact .inr ⟨l, f, g, h1, h2, hfg, hs⟩
    · exact .inr ⟨l, f, aset g i true, h1, h2, flagsAgree_aset_right hfg true, hs⟩
    · exact .inr ⟨l, aset f i true, g, h1, h2, flagsAgree_aset_left hfg true, hs⟩
    · exact .inr ⟨l, aset f i true, aset g i true, h1, h2,
        flagsAgree_aset_right (flagsAgree_aset_left hfg true) true, hs⟩
  · have hflag : alookup g i = alookup f i := (hfg i hij).symm
    by_cases hc : iter = 1 ∧ alookup f i = some false
    · refine .inr ⟨l, f, g, ?_, ?_, hfg, hs⟩
      · rw [voteStep, if_pos hc]
      · rw [voteStep, if_pos (by rw [hflag]; exact hc)]
    · have hc2 : ¬(iter = 1 ∧ alookup g i = some false) := by
        rw [hflag]; exact hc
      cases hlook : alookup l.ballotState (store i).ballot.oid with
      | none =>
        refine .inl ⟨?_, ?_⟩ <;> [rw [voteStep, if_neg hc, hlook]; rw [voteStep, if_neg hc2, hlook]]
      | some old =>
        by_cases hpe : (store i).prev ≠ old
        · refine .inr ⟨l, aset f i true, aset g i true, ?_, ?_,
            flagsAgree_aset_both hfg i true, hs⟩
          · rw [voteStep, if_neg hc, hlook]
            simp only
            rw [if_pos hpe]
          · rw [voteStep, if_neg hc2, hlook]
            simp only
            rw [if_pos hpe]
        · cases hta : tallyAdd l.tally (store i).ballot.get_selected_choices with
          | none =>
            refine .inl ⟨?_, ?_⟩ <;>
              [rw [voteStep, if_neg hc, hlook]; rw [voteStep, if_neg hc2, hlook]] <;>
              simp only <;> rw [if_neg hpe, hta]
          | some t =>
            have hef : voteStep store iter l f i =
                .ok ({ voteApplyCore l (store i) old with tally := t }, aset f i false) := by
              rw [voteStep, if_neg hc, hlook]
              simp only
              rw [if_neg hpe, hta]
            have heg : voteStep store iter l g i =
                .ok ({ voteApplyCore l (store i) old with tally := t }, aset g i false) := by
              rw [voteStep, if_neg hc2, hlook]
              simp only
              rw [if_neg hpe, hta]
            refine .inr ⟨_, _, _, hef, heg, flagsAgree_aset_both hfg i false, ?_⟩
            obtain ⟨s, hsl, hsr⟩ := hs
            obtain ⟨s', hs1, hs2⟩ := (voteStep_ok_inv hef).2.2.2 _ _ hsl
            exact ⟨s', hs1, le_trans hsr (hs2 hlegi)⟩

theorem votePass_aligned {store : Nat → VoteTx} {j : Nat} (iter : Nat)
    (hlegj : legalVoteTx (store j)) :
    ∀ (ids : List Nat), (∀ i ∈ ids, legalVoteTx (store i)) →
    ∀ {l : VoteLedger} {f g : Flags}, flagsAgree j f g → staleFor store j l →
    (votePass store iter l f ids = .error () ∧ votePass store iter l g ids = .error ()) ∨
    (∃ l' f' g', votePass store iter l f ids = .ok (l', f') ∧
      votePass store iter l g ids = .ok (l', g') ∧
      flagsAgree j f' g' ∧ staleFor store j l') := by
  intro ids
  induction ids with
  | nil =>
    intro _ l f g hfg hs
    exact .inr ⟨l, f, g, by rw [votePass], by rw [votePass], hfg, hs⟩
  | cons x xs ih =>
    intro hlegs l f g hfg hs
    rcases voteStep_aligned iter x (hlegs x (by simp)) hlegj hfg hs with
      ⟨h1, h2⟩ | ⟨l1, f1, g1, h1, h2, hfg1, hs1⟩
    · refine .inl ⟨?_, ?_⟩ <;> rw [votePass] <;> [rw [h1]; rw [h2]]
    · rcases ih (fun i2 hi2 => hlegs i2 (by simp [hi2])) hfg1 hs1 with
        ⟨h3, h4⟩ | ⟨l2, f2, g2, h3, h4, hfg2, hs2⟩
      · refine .inl ⟨?_, ?_⟩ <;> rw [votePass] <;> [rw [h1]; rw [h2]] <;>
          simp only <;> [exact h3; exact h4]
      · refine .inr ⟨l2, f2, g2, ?_, ?_, hfg2, hs2⟩ <;>
          rw [votePass] <;> [rw [h1]; rw [h2]] <;> simp only <;> [exact h3; exact h4]



theorem vote_apply_insert_stale (store : Nat → VoteTx) (j : Nat) (xs ys : List Nat)
    (l : VoteLedger)
    (hlegs : ∀ i ∈ xs ++ j :: ys, legalVoteTx (store i))
    (hs : staleFor store j l) :
    VoteLedger.apply_transactions store (xs ++ j :: ys) l =
      VoteLedger.apply_transactions store (xs ++ ys) l := by
  have hlegj : legalVoteTx (store j) := hlegs j (by simp)
  have hlegxs : ∀ i ∈ xs, legalVoteTx (store i) := fun i hi => hlegs i (by simp [hi])
  have hlegys : ∀ i ∈ ys, legalVoteTx (store i) := fun i hi => hlegs i (by simp [hi])
  rw [VoteLedger.apply_transactions, VoteLedger.apply_transactions]
  simp only [votePass_append]
  cases hA : votePass store 0 l [] xs with
  | error e =>
    cases e
    simp only
  | ok p =>
    obtain ⟨lA, fA⟩ := p
    have hsA : staleFor store j lA := by
      rcases votePass_aligned 0 hlegj xs hlegxs (g := []) (fun i0 _ => rfl) hs with
        ⟨h1, _⟩ | ⟨l', f', g', h1, _, _, hs'⟩
      · rw [hA] at h1
        exact absurd h1 (by simp)
      · rw [hA] at h1
        injection h1 with h1
        injection h1 with hl hf
        subst hl
        exact hs'
    simp only
    rw [votePass, voteStep_stale0 fA hlegj hsA]
    simp only
    rcases votePass_aligned 0 hlegj ys hlegys
        (flagsAgree_aset_left (g := fA) (fun i0 _ => rfl) true) hsA with
      ⟨h1, h2⟩ | ⟨lB, fL, fR, h1, h2, hfgB, hsB⟩
    · rw [h1, h2]
    · rw [h1, h2]
      simp only
      rcases votePass_aligned 1 hlegj xs hlegxs hfgB hsB with
        ⟨h3, h4⟩ | ⟨lC, fL1, fR1, h3, h4, hfgC, hsC⟩
      · rw [h3, h4]
      · rw [h3, h4]
        simp only
        rw [votePass]
        rcases voteStep_stale 1 fL1 hlegj hsC with hJ2 | hJ2 <;> rw [hJ2] <;> simp only
        · rcases votePass_aligned 1 hlegj ys hlegys hfgC hsC with
            ⟨h5, h6⟩ | ⟨lD, fL2, fR2, h5, h6, _, _⟩ <;> rw [h5, h6]
        · rcases votePass_aligned 1 hlegj ys hlegys (flagsAgree_aset_left hfgC true) hsC with
            ⟨h5, h6⟩ | ⟨lD, fL2, fR2, h5, h6, _, _⟩ <;> rw [h5, h6]



theorem voterStep_keeps_voted {l : VoterLedger} {tx : VoterTx} {l' : VoterLedger}
    (hleg : legalVoterTx tx) (h : voterStep l tx = .ok l') {b : Nat}
    (hb : alookup l.voterState b = some .voted) :
    alookup l'.voterState b = some .voted := by
  obtain ⟨s', h1, h2⟩ := (voterStep_ok_inv h).2.2 b .voted hb
  rw [h2 hleg rfl] at h1
  exact h1

theorem voterStep_stale {l : VoterLedger} {tx : VoterTx}
    (hleg : legalVoterTx tx) (hv : alookup l.voterState tx.voter.oid = some .voted) :
    voterStep l tx = .ok l := by
  rw [voterStep, hv]
  simp only
  rw [if_pos (by rw [hleg.1]; simp)]

theorem voter_apply_insert_stale (tx : VoterTx) (xs ys : List VoterTx) (l : VoterLedger)
    (hlegs : ∀ u ∈ xs ++ tx :: ys, legalVoterTx u)
    (hv : alookup l.voterState tx.voter.oid = some .voted) :
    VoterLedger.apply_transactions (xs ++ tx :: ys) l =
      VoterLedger.apply_transactions (xs ++ ys) l := by
  induction xs generalizing l with
  | nil =>
    simp only [List.nil_append]
    rw [VoterLedger.apply_transactions, voterStep_stale (hlegs tx (by simp)) hv]
  | cons u xs ih =>
    rw [List.cons_append, List.cons_append,
      VoterLedger.apply_transactions, VoterLedger.apply_transactions]
    cases hu : voterStep l u with
    | error e => simp only
    | ok l1 =>
      simp only
      exact ih l1 (fun w hw => hlegs w (by simp at hw ⊢; tauto))
        (voterStep_keeps_voted (hlegs u (by simp)) hu hv)

/-- C4: a transaction already applied to the ledger (the entity's recorded
state is at or past the transaction's target) is permanently stale: a batch of
legal-edge transactions containing such a stale copy — at any position, and in
particular a batch containing the same transaction twice — replays to a
snapshot identical to the batch without the stale copy; the copy's
precondition keeps failing, it is never re-applied, and no entity state,
aggregate counter or tally is double-counted. Vote and voter ledgers. -/
theorem C4_idempotent_replay :
    (∀ (store : Nat → VoteTx) (j : Nat) (xs ys : List Nat) (l : VoteLedger),
        (∀ i ∈ xs ++ j :: ys, legalVoteTx (store i)) →
        staleFor store j l →
        VoteLedger.apply_transactions store (xs ++ j :: ys) l =
          VoteLedger.apply_transactions store (xs ++ ys) l) ∧
    (∀ (tx : VoterTx) (xs ys : List VoterTx) (l : VoterLedger),
        (∀ u ∈ xs ++ tx :: ys, legalVoterTx u) →
        alookup l.voterState tx.voter.oid = some .voted →
        VoterLedger.apply_transactions (xs ++ tx :: ys) l =
          VoterLedger.apply_transactions (xs ++ ys) l) :=
  ⟨vote_apply_insert_stale, voter_apply_insert_stale⟩

/-- C4 witness: re-sending the already-applied `Created → Issued` transaction
after the `Issued → Used` one changes nothing on the sample vote ledger, and a
batch holding the same voter transaction twice equals the single-copy batch
on a ledger where the voter has already voted. -/
theorem C4_witness :
    VoteLedger.apply_transactions sPairStore [1, 0] sLedgerIssued =
      VoteLedger.apply_transactions sPairStore [1] sLedgerIssued ∧
    VoterLedger.apply_transactions [sVoterTx, sVoterTx] sVoterLedgerVoted =
      VoterLedger.apply_transactions [sVoterTx] sVoterLedgerVoted :=
  ⟨C4_idempotent_replay.1 sPairStore 0 [1] [] sLedgerIssued
      (by
        intro i hi
        simp at hi
        rcases hi with h | h <;> subst h
        · exact .inr ⟨rfl, rfl⟩
        · exact .inl ⟨rfl, rfl⟩)
      ⟨.issued, by decide, by decide⟩,
    C4_idempotent_replay.2 sVoterTx [sVoterTx] [] sVoterLedgerVoted
      (by
        intro u hu
        simp at hu
        subst hu
        exact ⟨rfl, rfl⟩)
      (by decide)⟩

end BEVote
